import Mathlib

/-!
Verification of the mx5nb-minidash telemetry protocol codec.

Shallow embedding of:
* `Source/pico_dashboard/protocol/invent_ems.c` — checksum, serial byte
  parser state machine, packet field decoding, CAN frame decoding;
* `Source/CarEmu/CarEmu.c` — emulator checksum (`calcChecksum`) and serial
  frame builder (`buildAndSend`, layout only: float quantization of field
  values is abstracted into already-quantized raw integers);
* the two single-producer/single-consumer ring buffers
  (`bsp_can.c` 32-slot CAN ring, `pico_dashboard.cpp` 256-slot UART ring).

Machine integers are modelled as `Nat` with explicit `% 2^w` where C performs
modular arithmetic; byte buffers are total functions `Nat → Nat` whose reads
are masked `% 256` exactly where C reads `uint8_t` storage.  C `float` fields
of the telemetry record are modelled as `Option ℚ`: `none` is the NaN
"no data yet" sentinel written by `invent_ems_init`, `some q` the exact
rational value of the decoded quantity (the decoders compute products of
integers with constant scale factors; only NaN-ness vs. numberhood and which
fields a given frame writes are used by the theorems below, not float
rounding).
-/

set_option maxRecDepth 4000

/-- Pointwise update of a byte-buffer function (one array store). -/
def upd (f : Nat → Nat) (i v : Nat) : Nat → Nat :=
  fun j => if j = i then v else f j

/-- View a list of bytes as a buffer function (out-of-range reads give 0,
matching the zero-initialised static C arrays). -/
def bufOf (l : List Nat) : Nat → Nat :=
  fun i => l.getD i 0

/-- One step of the CRC16 accumulator update, from `checksum` in
`invent_ems.c` (and, identically, `calcChecksum` in `CarEmu.c`):
`d ^= crc & 0xFF; d ^= (uint8_t)(d << 4);
 t = ((uint16_t)d << 8) | ((crc >> 8) & 0xFF);
 t ^= (uint8_t)(d >> 4); t ^= (uint16_t)d << 3; crc = t`. -/
def crcStep (crc b : Nat) : Nat :=
  let d1 := (b % 256) ^^^ (crc % 256)
  let d := d1 ^^^ ((d1 <<< 4) % 256)
  let t := ((d <<< 8) ||| ((crc >>> 8) % 256)) ^^^ ((d >>> 4) % 256)
  (t ^^^ (d <<< 3)) % 65536

/-- CRC16 of the first `n` bytes of `buf`, accumulator initialised to
`0xFFFF`. -/
def crcRun (buf : Nat → Nat) : Nat → Nat
  | 0 => 0xFFFF
  | n + 1 => crcStep (crcRun buf n) (buf n)

/-- Decoder checksum, from `checksum` in `invent_ems.c`:
`len = buf[0] - 2` in `uint8` arithmetic; guard `len >= MAX_RX_BUF - 2`
returns 0; otherwise the CRC covers `buf[0] .. buf[len]`. -/
def checksum (buf : Nat → Nat) : Nat :=
  let len := (buf 0 % 256 + 254) % 256
  if 62 ≤ len then 0 else crcRun buf (len + 1)

/-- Emulator checksum, from `calcChecksum` in `CarEmu.c`: identical loop,
without the decoder's length guard. -/
def calcChecksum (buf : Nat → Nat) : Nat :=
  let len := (buf 0 % 256 + 254) % 256
  crcRun buf (len + 1)

/-- Modelled from the spec (§4.1 ChecksumEngine), for comparison with the
two source implementations: one accumulator update exactly as the spec words
it — "XOR the low byte of the accumulator into `d`; XOR `d` with `d` shifted
left 4; form a 16-bit value `t = (d << 8) | (high byte of accumulator)`;
XOR into `t` the value `(d >> 4)`; XOR into `t` the value `(d << 3)`;
accumulator becomes `t`" — on a byte `d0 < 256`. -/
def crcSpecStep (acc d0 : Nat) : Nat :=
  let dA := d0 ^^^ (acc % 256)
  let dB := dA ^^^ ((dA <<< 4) % 256)
  ((((dB <<< 8) ||| (acc / 256 % 256)) ^^^ (dB >>> 4)) ^^^ (dB <<< 3)) % 65536

/-- Modelled from the spec: the checksum of a byte list, accumulator
starting at `0xFFFF`. -/
def crcSpecOf (bytes : List Nat) : Nat :=
  bytes.foldl crcSpecStep 0xFFFF

/-- Read one `uint8_t` cell of a buffer. -/
def byteAt (buf : Nat → Nat) (i : Nat) : Nat := buf i % 256

/-- `read_u16` from `invent_ems.c`: `p[0] | (p[1] << 8)` little-endian. -/
def readU16 (buf : Nat → Nat) (i : Nat) : Nat :=
  byteAt buf i + 256 * byteAt buf (i + 1)

/-- Conversion of a 16-bit pattern to `int16_t`. -/
def toI16 (v : Nat) : Int :=
  if v % 65536 < 32768 then (v % 65536 : Int) else (v % 65536 : Int) - 65536

/-- `read_i16` from `invent_ems.c`. -/
def readI16 (buf : Nat → Nat) (i : Nat) : Int := toI16 (readU16 buf i)

/-- Conversion of a byte (or wider pattern, truncated) to `int8_t`. -/
def toI8 (v : Nat) : Int :=
  if v % 256 < 128 then (v % 256 : Int) else (v % 256 : Int) - 256

/-- The accumulated ECU telemetry record `invent_ems_data_t`
(`invent_ems.h`).  C `float` fields are `Option ℚ`: `none` models the NaN
"no data yet" sentinel, `some q` a decoded numeric value.  `uint8/uint16/
uint32` fields are `Nat`, signed fields are `Int`; the fixed arrays
`adc_an[10]` and `pwm_duty[6]` are lists. -/
structure EcuData where
  connected : Bool
  packet_count : Nat
  error_count : Nat
  rpm : Option ℚ
  ign_angle : Option ℚ
  inj_time_ms : Option ℚ
  tps : Option ℚ
  dbw_pos : Option ℚ
  map_kpa : Option ℚ
  lambda : Option ℚ
  speed : Option ℚ
  fuel_flow : Option ℚ
  knock_v : Option ℚ
  transient_corr : Int
  runlevel : Nat
  cyl_no : Nat
  corr_angle : Int
  lambda_target : Option ℚ
  lambda_corr_fast : Int
  lambda_corr_slow : Int
  fuel_pressure_kpa : Option ℚ
  dwell_ms : Option ℚ
  voltage : Option ℚ
  gear : Int
  dbw_cmd : Option ℚ
  lambda2 : Option ℚ
  flag_major : Nat
  flag_minor : Nat
  flag_notify : Nat
  flag_notify2 : Nat
  flag_protection : Nat
  idle_pos : Option ℚ
  airflow : Nat
  boost_duty : Nat
  boost_target : Nat
  egr_pos : Nat
  egr_target : Nat
  inj_duty : Nat
  inj_lag_time : Int
  inj_end_angle : Int
  fuel_press_coef : Nat
  air_charge_t : Int
  inj_air_charge_corr : Int
  speed2 : Nat
  back_pressure_kpa : Option ℚ
  ign_accel_corr : Int
  vvt1_curr : Int
  vvt1_target : Int
  vvt2_curr : Int
  vvt2_target : Int
  vvt1b_curr : Int
  vvt2b_curr : Int
  tcs_corr : Nat
  pwm3d_target : Option ℚ
  pwm3d_curr : Option ℚ
  trip_fuel_l : Option ℚ
  trip_path_km : Option ℚ
  curr_fuel_cons : Option ℚ
  trip_fuel_cons : Option ℚ
  fuel_composition : Option ℚ
  adc_tps : Nat
  adc_ct : Nat
  adc_iat : Nat
  adc_dbw1 : Nat
  adc_dbw2 : Nat
  adc_map : Nat
  adc_lambda : Nat
  adc_an : List Nat
  input_state : Nat
  output_state : Nat
  dbw_driver_status : Nat
  dbw_system_status : Nat
  gas_state : Nat
  at_temp : Int
  at_state : Nat
  fuel_level : Nat
  clt : Option ℚ
  iat : Option ℚ
  oil_temp : Option ℚ
  fuel_temp : Option ℚ
  egt1 : Option ℚ
  egt2 : Option ℚ
  oil_pressure : Option ℚ
  pwm_duty : List (Option ℚ)

/-- `invent_ems_init`: `memset(&ecu_data, 0, …)` zeroes every integer field
and clears `connected`; every `float` field is then set to NaN ("no data
yet"), modelled as `none`. -/
def initEcu : EcuData where
  connected := false
  packet_count := 0
  error_count := 0
  rpm := none
  ign_angle := none
  inj_time_ms := none
  tps := none
  dbw_pos := none
  map_kpa := none
  lambda := none
  speed := none
  fuel_flow := none
  knock_v := none
  transient_corr := 0
  runlevel := 0
  cyl_no := 0
  corr_angle := 0
  lambda_target := none
  lambda_corr_fast := 0
  lambda_corr_slow := 0
  fuel_pressure_kpa := none
  dwell_ms := none
  voltage := none
  gear := 0
  dbw_cmd := none
  lambda2 := none
  flag_major := 0
  flag_minor := 0
  flag_notify := 0
  flag_notify2 := 0
  flag_protection := 0
  idle_pos := none
  airflow := 0
  boost_duty := 0
  boost_target := 0
  egr_pos := 0
  egr_target := 0
  inj_duty := 0
  inj_lag_time := 0
  inj_end_angle := 0
  fuel_press_coef := 0
  air_charge_t := 0
  inj_air_charge_corr := 0
  speed2 := 0
  back_pressure_kpa := none
  ign_accel_corr := 0
  vvt1_curr := 0
  vvt1_target := 0
  vvt2_curr := 0
  vvt2_target := 0
  vvt1b_curr := 0
  vvt2b_curr := 0
  tcs_corr := 0
  pwm3d_target := none
  pwm3d_curr := none
  trip_fuel_l := none
  trip_path_km := none
  curr_fuel_cons := none
  trip_fuel_cons := none
  fuel_composition := none
  adc_tps := 0
  adc_ct := 0
  adc_iat := 0
  adc_dbw1 := 0
  adc_dbw2 := 0
  adc_map := 0
  adc_lambda := 0
  adc_an := List.replicate 10 0
  input_state := 0
  output_state := 0
  dbw_driver_status := 0
  dbw_system_status := 0
  gas_state := 0
  at_temp := 0
  at_state := 0
  fuel_level := 0
  clt := none
  iat := none
  oil_temp := none
  fuel_temp := none
  egt1 := none
  egt2 := none
  oil_pressure := none
  pwm_duty := List.replicate 6 none

/-- `parse_fast` from `invent_ems.c`: decode the fixed fast channels from
the accumulated packet buffer (`rxbuf` indices 2..17). -/
def parseFast (buf : Nat → Nat) (e : EcuData) : EcuData :=
  { e with
    runlevel := byteAt buf 2
    ign_angle := some ((readI16 buf 3 : ℚ) * (1/4))
    fuel_flow := some ((byteAt buf 5 : ℚ) * (1/16))
    rpm := some (if 0 < readU16 buf 6
      then (10000000 : ℚ) / (readU16 buf 6 : ℚ) else 0)
    inj_time_ms := some ((readU16 buf 8 : ℚ) * (1/250))
    knock_v := some ((byteAt buf 10 : ℚ) * (5/256))
    tps := some ((byteAt buf 11 : ℚ) * (100/255))
    dbw_pos := some ((byteAt buf 12 : ℚ) * (100/255))
    map_kpa := some ((byteAt buf 13 : ℚ) * 2)
    lambda := some ((byteAt buf 14 : ℚ) * (1/128))
    cyl_no := byteAt buf 15
    transient_corr := toI8 (byteAt buf 16)
    speed := some ((byteAt buf 17 : ℚ)) }

/-- `parse_slow` from `invent_ems.c`: decode one of the ten fixed 11-byte
slow-variant layouts; `s` is the view of `rxbuf` starting at offset 25.
Any id outside 0..9 is never passed by `parse_packet` (modelled as a
no-op default branch). -/
def parseSlow (id : Nat) (s : Nat → Nat) (e : EcuData) : EcuData :=
  match id with
  | 0 => { e with
      corr_angle := toI8 (byteAt s 0)
      lambda_target := some ((byteAt s 1 : ℚ) * (1/128))
      lambda_corr_fast := toI8 (byteAt s 2)
      lambda_corr_slow := toI8 (byteAt s 3)
      fuel_pressure_kpa := some ((readU16 s 4 : ℚ))
      dwell_ms := some ((byteAt s 6 : ℚ))
      voltage := some ((byteAt s 7 : ℚ) * (1/10))
      gear := toI8 (byteAt s 8)
      dbw_cmd := some ((byteAt s 9 : ℚ))
      lambda2 := some ((byteAt s 10 : ℚ) * (1/128)) }
  | 1 => { e with
      flag_major := byteAt s 0
      flag_minor := byteAt s 1
      flag_notify := byteAt s 2
      flag_notify2 := byteAt s 3
      flag_protection := byteAt s 4
      idle_pos := some ((byteAt s 5 : ℚ) * (100/256))
      airflow := readU16 s 6
      boost_duty := byteAt s 8
      boost_target := byteAt s 9 }
  | 2 => { e with
      egr_pos := byteAt s 0
      egr_target := byteAt s 1
      inj_duty := byteAt s 2
      inj_lag_time := readI16 s 3
      inj_end_angle := toI8 (byteAt s 5)
      fuel_press_coef := byteAt s 6
      air_charge_t := toI8 (byteAt s 7)
      inj_air_charge_corr := toI8 (byteAt s 8)
      speed2 := byteAt s 9
      back_pressure_kpa := some ((byteAt s 10 : ℚ) * 2) }
  | 3 => { e with
      ign_accel_corr := readI16 s 0
      vvt1_curr := toI8 (byteAt s 2)
      vvt1_target := toI8 (byteAt s 3)
      vvt2_curr := toI8 (byteAt s 4)
      vvt2_target := toI8 (byteAt s 5)
      vvt1b_curr := toI8 (byteAt s 6)
      vvt2b_curr := toI8 (byteAt s 7)
      tcs_corr := byteAt s 8
      pwm3d_target := some ((byteAt s 9 : ℚ) * (100/256))
      pwm3d_curr := some ((byteAt s 10 : ℚ) * (100/256)) }
  | 4 => { e with
      trip_fuel_l := some ((readU16 s 0 : ℚ) * (1/100))
      trip_path_km := some ((readU16 s 2 : ℚ) * (1/10))
      curr_fuel_cons := some ((readU16 s 4 : ℚ) * (1/10))
      trip_fuel_cons := some ((readU16 s 6 : ℚ) * (1/10))
      fuel_composition := some ((byteAt s 8 : ℚ) * (100/256)) }
  | 5 => { e with
      adc_tps := byteAt s 0
      adc_ct := byteAt s 1
      adc_iat := byteAt s 2
      adc_dbw1 := byteAt s 3
      adc_dbw2 := byteAt s 4
      adc_map := byteAt s 5
      adc_lambda := byteAt s 6 }
  | 6 => { e with adc_an := (List.range 10).map (fun i => byteAt s i) }
  | 7 => { e with
      input_state := byteAt s 0
      output_state := readU16 s 1
      dbw_driver_status := byteAt s 3
      dbw_system_status := byteAt s 4
      gas_state := byteAt s 5
      at_temp := toI8 (byteAt s 6)
      at_state := byteAt s 7
      fuel_level := byteAt s 8 }
  | 8 => { e with
      clt := some ((toI8 (byteAt s 0) : ℚ))
      iat := some ((toI8 (byteAt s 1) : ℚ))
      oil_temp := some ((byteAt s 2 : ℚ))
      fuel_temp := some ((toI8 (byteAt s 3) : ℚ))
      egt1 := some ((readU16 s 5 : ℚ))
      egt2 := some ((readU16 s 7 : ℚ))
      oil_pressure := some ((byteAt s 9 : ℚ) * (1/10)) }
  | 9 => { e with
      pwm_duty := (List.range 6).map (fun i => some ((byteAt s i : ℚ) * (100/256))) }
  | _ => e

/-- `parse_packet` from `invent_ems.c`: fast channels unconditionally, the
slow variant only when `rxbuf[24] < 10`, then `connected`, the `uint32`
packet counter and (at the caller's state, see `feedByte`) the new-data
flag. -/
def parsePacket (buf : Nat → Nat) (e : EcuData) : EcuData :=
  let e1 := parseFast buf e
  let e2 := if byteAt buf 24 < 10
    then parseSlow (byteAt buf 24) (fun i => buf (25 + i)) e1 else e1
  { e2 with connected := true
            packet_count := (e2.packet_count + 1) % 4294967296 }

/-- The serial parser's mutable state: `rxstate`, the 64-byte `rxbuf`
accumulator, the `uint8` write pointer `rxptr`, plus the telemetry record
and the `new_data_flag` that `parse_packet` raises. -/
structure ParserState where
  rxstate : Nat
  rxbuf : Nat → Nat
  rxptr : Nat
  ecu : EcuData
  newData : Bool

/-- State after `invent_ems_init` (the static `rxbuf` array is
zero-initialised at program start). -/
def initState : ParserState where
  rxstate := 0
  rxbuf := fun _ => 0
  rxptr := 0
  ecu := initEcu
  newData := false

/-- The `rxbuf` store performed in parser state 6: bytes beyond the 64-byte
buffer are dropped (`rxptr < MAX_RX_BUF`) but still counted. -/
def storeByte (s : ParserState) (b : Nat) : Nat → Nat :=
  if s.rxptr < 64 then upd s.rxbuf s.rxptr (b % 256) else s.rxbuf

/-- `invent_ems_feed_byte`: the byte-at-a-time framing state machine.
States 0-3 match the sync pattern `0x55 0x00 0xAA 0x00`, state 4 the
version byte `0x54`, state 5 the length byte (valid range `[4,48]`),
state 6 accumulates payload + CRC.  The C `do … while (retry)` loop —
a mismatch in states 1-4 resets `rxstate` to 0 and re-runs case 0 on the
same byte — is modelled by inlining case 0's test in the mismatch
branches.  `rxptr` is `uint8`, hence the `% 256`. -/
def feedByte (s : ParserState) (b0 : Nat) : ParserState :=
  let b := b0 % 256
  match s.rxstate with
  | 0 => if b = 0x55 then { s with rxstate := 1 } else s
  | 1 => if b = 0x00 then { s with rxstate := 2 }
         else if b = 0x55 then { s with rxstate := 1 } else { s with rxstate := 0 }
  | 2 => if b = 0xAA then { s with rxstate := 3 }
         else if b = 0x55 then { s with rxstate := 1 } else { s with rxstate := 0 }
  | 3 => if b = 0x00 then { s with rxstate := 4 }
         else if b = 0x55 then { s with rxstate := 1 } else { s with rxstate := 0 }
  | 4 => if b = 0x54 then { s with rxstate := 5 }
         else if b = 0x55 then { s with rxstate := 1 } else { s with rxstate := 0 }
  | 5 => if 4 ≤ b ∧ b ≤ 48 then
           { s with rxbuf := upd s.rxbuf 0 b, rxptr := 1, rxstate := 6 }
         else { s with rxstate := 0 }
  | 6 =>
      let buf := storeByte s b
      let ptr := (s.rxptr + 1) % 256
      if byteAt buf 0 < ptr then
        if checksum buf =
            byteAt buf ((ptr + 254) % 256) + 256 * byteAt buf ((ptr + 255) % 256) then
          { s with rxbuf := buf, rxptr := ptr, rxstate := 0,
                   ecu := parsePacket buf s.ecu, newData := true }
        else
          { s with rxbuf := buf, rxptr := ptr, rxstate := 0,
                   ecu := { s.ecu with
                     error_count := (s.ecu.error_count + 1) % 4294967296 } }
      else { s with rxbuf := buf, rxptr := ptr }
  | _ => { s with rxstate := 0 }

/-- Feed a byte sequence, oldest first. -/
def feedBytes (s : ParserState) (bs : List Nat) : ParserState :=
  bs.foldl feedByte s

/-- The exact guard under which `feedByte` runs `parse_packet` on this byte
(frame completion with matching CRC). -/
def decodedOne (s : ParserState) (b0 : Nat) : Bool :=
  let b := b0 % 256
  let buf := storeByte s b
  let ptr := (s.rxptr + 1) % 256
  s.rxstate == 6 && byteAt buf 0 < ptr &&
    checksum buf ==
      byteAt buf ((ptr + 254) % 256) + 256 * byteAt buf ((ptr + 255) % 256)

/-- Number of successfully decoded (checksum-verified and parsed) frames
while feeding a byte sequence. -/
def countDecodes (s : ParserState) : List Nat → Nat
  | [] => 0
  | b :: bs => (if decodedOne s b then 1 else 0) + countDecodes (feedByte s b) bs

/-- One complete valid wire frame: the 4 sync bytes, the version byte
`0x54`, a length byte `L ∈ [4,48]`, then exactly `L` further bytes whose
trailing two bytes are the little-endian checksum of the accumulated
buffer `L :: body` computed over indices `0 .. L-2`. -/
def ValidFrame (F : List Nat) : Prop :=
  ∃ L body, F = 0x55 :: 0x00 :: 0xAA :: 0x00 :: 0x54 :: L :: body ∧
    body.length = L ∧ 4 ≤ L ∧ L ≤ 48 ∧ (∀ b ∈ body, b < 256) ∧
    checksum (bufOf (L :: body)) =
      body.getD (L - 2) 0 + 256 * body.getD (L - 1) 0

/-- Sequential multi-byte store into a buffer starting at index `i`
(specification device for reasoning about state-6 accumulation). -/
def writeList (f : Nat → Nat) (i : Nat) : List Nat → (Nat → Nat)
  | [] => f
  | b :: bs => writeList (upd f i (b % 256)) (i + 1) bs

/-- The bus-frame identifiers recognised by `invent_ems_feed_can_frame`
(`0x300, 0x302, 0x304, 0x305, 0x306, 0x307, 0x340`). -/
def canIds : List Nat := [0x300, 0x302, 0x304, 0x305, 0x306, 0x307, 0x340]

/-- The `switch (id)` body of `invent_ems_feed_can_frame`: `some` of the
field updates for a recognised identifier, `none` for the default branch. -/
def canDecode (e : EcuData) (id : Nat) (d : Nat → Nat) : Option EcuData :=
  if id = 0x300 then some { e with
    rpm := some ((readU16 d 0 : ℚ))
    tps := some ((readI16 d 2 : ℚ) * (1/10))
    map_kpa := some ((readU16 d 4 : ℚ) * (1/100))
    iat := some ((readI16 d 6 : ℚ) * (1/10)) }
  else if id = 0x302 then some { e with
    ign_angle := some ((readI16 d 0 : ℚ) * (1/10))
    dwell_ms := some ((readU16 d 2 : ℚ) * (1/10))
    inj_time_ms := some ((readU16 d 6 : ℚ) * (1/1000)) }
  else if id = 0x304 then some { e with
    oil_temp := some ((readI16 d 0 : ℚ) * (1/10))
    oil_pressure := some ((readI16 d 2 : ℚ) * (1/10) / 100)
    clt := some ((readI16 d 4 : ℚ) * (1/10))
    voltage := some ((readI16 d 6 : ℚ) * (1/10)) }
  else if id = 0x305 then some { e with
    gear := toI8 (readU16 d 0)
    speed := some ((readU16 d 4 : ℚ) * (1/10)) }
  else if id = 0x306 then some { e with
    knock_v := some ((readI16 d 0 : ℚ) * (1/10))
    fuel_pressure_kpa := some ((readU16 d 4 : ℚ) * (1/10))
    fuel_temp := some ((readI16 d 6 : ℚ) * (1/10)) }
  else if id = 0x307 then some { e with
    egt1 := some ((readI16 d 0 : ℚ) * (1/10))
    egt2 := some ((readI16 d 2 : ℚ) * (1/10)) }
  else if id = 0x340 then some { e with
    speed := some ((readU16 d 0 : ℚ) * (1/10)) }
  else none

/-- `invent_ems_feed_can_frame` on the telemetry record and the new-data
flag (`dlc` is ignored by the C function): unknown identifiers return
`false` and touch nothing; recognised identifiers additionally set
`connected` and raise the new-data flag. -/
def feedCanFrame (e : EcuData) (nd : Bool) (id : Nat) (d : Nat → Nat) :
    Bool × EcuData × Bool :=
  match canDecode e id d with
  | none => (false, e, nd)
  | some e1 => (true, { e1 with connected := true }, true)

/-- The already-quantized raw wire values the emulator's `buildAndSend`
writes into `TInfoPacket` (the `float → integer` quantization performed by
`clampU8`/casts in `CarEmu.c` is abstracted into these integer inputs; the
fields `Type = 0x01`, `KnockVoltagePerCyl`, `KnockRetardPerCyl`,
`TmrDifPerCyl`, `Debug1`, `Debug2` are the constants the C code writes).
`slow` is the 11-byte slow-variant image produced by the `fillSlowN`
routine that `slowId` selects (`memset` pads it with zeros). -/
structure TxRaw where
  runlevel : Nat
  uoz : Nat
  rashod : Nat
  period : Nat
  injTime : Nat
  knockVoltage : Nat
  tps : Nat
  dbwCurrPos : Nat
  mapKpa : Nat
  lambda : Nat
  cylNo : Nat
  transientCorr : Nat
  speed : Nat
  slowId : Nat
  slow : List Nat

/-- Low byte of a 16-bit little-endian value. -/
def lo16 (v : Nat) : Nat := v % 256

/-- High byte of a 16-bit little-endian value. -/
def hi16 (v : Nat) : Nat := v / 256 % 256

/-- The 36-byte `TInfoPacket` image `buildAndSend` assembles in `txbuf`:
`Length = sizeof(TInfoPacket) + 1 = 37` at offset 0, `Type = 0x01`,
the fast channels, the six constant diagnostic/debug bytes, the
slow-variant id at offset 24 and the 11 slow bytes at offsets 25..35. -/
def buildTxPayload (r : TxRaw) : List Nat :=
  [37, 1, r.runlevel % 256,
   lo16 (r.uoz % 65536), hi16 (r.uoz % 65536),
   r.rashod % 256,
   lo16 (r.period % 65536), hi16 (r.period % 65536),
   lo16 (r.injTime % 65536), hi16 (r.injTime % 65536),
   r.knockVoltage % 256, r.tps % 256, r.dbwCurrPos % 256, r.mapKpa % 256,
   r.lambda % 256, r.cylNo % 256, r.transientCorr % 256, r.speed % 256,
   0, 0, 0, 0, 0, 0,
   r.slowId % 256] ++ ((r.slow.map (· % 256) ++ List.replicate 11 0).take 11)

/-- The complete byte sequence `buildAndSend` transmits: the 5-byte header
(sync + version), the 36-byte `TInfoPacket` image, and the 2-byte
little-endian CRC computed by `calcChecksum` over `txbuf`. -/
def buildAndSendFrame (r : TxRaw) : List Nat :=
  let body := buildTxPayload r
  let crc := calcChecksum (bufOf body)
  [0x55, 0x00, 0xAA, 0x00, 0x54] ++ body ++ [crc % 256, crc / 256 % 256]

/-- Single-producer/single-consumer ring buffer state, as in the 32-slot CAN
frame ring of `bsp_can.c` (`rx_buf`/`rx_head`/`rx_tail`) and the 256-slot
UART byte ring of `pico_dashboard.cpp`
(`uart_rx_buf`/`uart_rx_head`/`uart_rx_tail`). -/
structure RxRing (α : Type) where
  buf : Nat → α
  head : Nat
  tail : Nat

/-- Producer push (`can_rx_cb` / `uart0_irq_handler`): compute the next
head; if it would collide with the tail the item is dropped and nothing
changes, otherwise store at the current head and advance. -/
def ringPush (N : Nat) (r : RxRing α) (x : α) : RxRing α :=
  let nxt := (r.head + 1) % N
  if nxt = r.tail then r
  else { r with buf := fun i => if i = r.head then x else r.buf i, head := nxt }

/-- Consumer pop (`bsp_can_recv` / the UART drain loop in `main`): empty
when tail = head, otherwise read at the tail and advance it. -/
def ringPop (N : Nat) (r : RxRing α) : Option α × RxRing α :=
  if r.tail = r.head then (none, r)
  else (some (r.buf r.tail), { r with tail := (r.tail + 1) % N })

/-- Number of queued items. -/
def ringSize (N : Nat) (r : RxRing α) : Nat := (r.head + N - r.tail) % N

/-- Queued items, oldest first. -/
def ringContents (N : Nat) (r : RxRing α) : List α :=
  (List.range (ringSize N r)).map (fun k => r.buf ((r.tail + k) % N))

/-- One producer or consumer action. -/
inductive RingOp (α : Type) where
  | push (x : α)
  | pop

/-- Apply one action. -/
def ringStep (N : Nat) (r : RxRing α) : RingOp α → RxRing α
  | .push x => ringPush N r x
  | .pop => (ringPop N r).2

/-- Apply a sequence of interleaved producer/consumer actions. -/
def ringRun (N : Nat) (r : RxRing α) : List (RingOp α) → RxRing α
  | [] => r
  | op :: ops => ringRun N (ringStep N r op) ops

/-- A concrete valid 10-byte wire frame with length byte 4: payload bytes
`0x00 0x00`, CRC16 `0x5A52` little-endian. -/
def frameSmall : List Nat := [0x55, 0x00, 0xAA, 0x00, 0x54, 4, 0, 0, 82, 90]

/-- A garbage prefix that is itself a well-formed frame start announcing a
48-byte body: sync, version, length byte 48. -/
def prefixGarbage : List Nat := [0x55, 0x00, 0xAA, 0x00, 0x54, 48]

/-- The emulator frame for all-zero raw field values. -/
def txZero : TxRaw where
  runlevel := 0
  uoz := 0
  rashod := 0
  period := 0
  injTime := 0
  knockVoltage := 0
  tps := 0
  dbwCurrPos := 0
  mapKpa := 0
  lambda := 0
  cylNo := 0
  transientCorr := 0
  speed := 0
  slowId := 0
  slow := []

/-- Parser state about to receive the final byte of a 27-byte packet whose
slow-variant id byte (`rxbuf[24]`) is 10 and whose received CRC
(16311 = `0x3FB7`) matches. -/
def stSlowOverflow : ParserState :=
  { initState with
    rxstate := 6
    rxbuf := bufOf ([27] ++ List.replicate 23 0 ++ [10, 0, 183])
    rxptr := 27 }

/-- Parser state about to receive the final byte of a 27-byte packet whose
received CRC (0) does not match the computed CRC (49863). -/
def stBadCrc : ParserState :=
  { initState with
    rxstate := 6
    rxbuf := bufOf [27]
    rxptr := 27 }

/-- Every `float` field of the telemetry record holds the NaN
"not-yet-received" sentinel (`none`). -/
def floatsNone (e : EcuData) : Prop :=
  e.rpm = none ∧ e.ign_angle = none ∧ e.inj_time_ms = none ∧ e.tps = none ∧
  e.dbw_pos = none ∧ e.map_kpa = none ∧ e.lambda = none ∧ e.speed = none ∧
  e.fuel_flow = none ∧ e.knock_v = none ∧ e.lambda_target = none ∧
  e.fuel_pressure_kpa = none ∧ e.dwell_ms = none ∧ e.voltage = none ∧
  e.dbw_cmd = none ∧ e.lambda2 = none ∧ e.idle_pos = none ∧
  e.back_pressure_kpa = none ∧ e.pwm3d_target = none ∧ e.pwm3d_curr = none ∧
  e.trip_fuel_l = none ∧ e.trip_path_km = none ∧ e.curr_fuel_cons = none ∧
  e.trip_fuel_cons = none ∧ e.fuel_composition = none ∧ e.clt = none ∧
  e.iat = none ∧ e.oil_temp = none ∧ e.fuel_temp = none ∧ e.egt1 = none ∧
  e.egt2 = none ∧ e.oil_pressure = none ∧ (∀ v ∈ e.pwm_duty, v = none)

/-- Every `float` field of `new` is either inherited unchanged from `old`
or holds an actual number (`some _`, never the NaN sentinel): decoding
steps never write NaN. -/
def floatsPreservedOrSome (old new : EcuData) : Prop :=
  (new.rpm = old.rpm ∨ new.rpm.isSome = true) ∧
  (new.ign_angle = old.ign_angle ∨ new.ign_angle.isSome = true) ∧
  (new.inj_time_ms = old.inj_time_ms ∨ new.inj_time_ms.isSome = true) ∧
  (new.tps = old.tps ∨ new.tps.isSome = true) ∧
  (new.dbw_pos = old.dbw_pos ∨ new.dbw_pos.isSome = true) ∧
  (new.map_kpa = old.map_kpa ∨ new.map_kpa.isSome = true) ∧
  (new.lambda = old.lambda ∨ new.lambda.isSome = true) ∧
  (new.speed = old.speed ∨ new.speed.isSome = true) ∧
  (new.fuel_flow = old.fuel_flow ∨ new.fuel_flow.isSome = true) ∧
  (new.knock_v = old.knock_v ∨ new.knock_v.isSome = true) ∧
  (new.lambda_target = old.lambda_target ∨ new.lambda_target.isSome = true) ∧
  (new.fuel_pressure_kpa = old.fuel_pressure_kpa ∨
    new.fuel_pressure_kpa.isSome = true) ∧
  (new.dwell_ms = old.dwell_ms ∨ new.dwell_ms.isSome = true) ∧
  (new.voltage = old.voltage ∨ new.voltage.isSome = true) ∧
  (new.dbw_cmd = old.dbw_cmd ∨ new.dbw_cmd.isSome = true) ∧
  (new.lambda2 = old.lambda2 ∨ new.lambda2.isSome = true) ∧
  (new.idle_pos = old.idle_pos ∨ new.idle_pos.isSome = true) ∧
  (new.back_pressure_kpa = old.back_pressure_kpa ∨
    new.back_pressure_kpa.isSome = true) ∧
  (new.pwm3d_target = old.pwm3d_target ∨ new.pwm3d_target.isSome = true) ∧
  (new.pwm3d_curr = old.pwm3d_curr ∨ new.pwm3d_curr.isSome = true) ∧
  (new.trip_fuel_l = old.trip_fuel_l ∨ new.trip_fuel_l.isSome = true) ∧
  (new.trip_path_km = old.trip_path_km ∨ new.trip_path_km.isSome = true) ∧
  (new.curr_fuel_cons = old.curr_fuel_cons ∨
    new.curr_fuel_cons.isSome = true) ∧
  (new.trip_fuel_cons = old.trip_fuel_cons ∨
    new.trip_fuel_cons.isSome = true) ∧
  (new.fuel_composition = old.fuel_composition ∨
    new.fuel_composition.isSome = true) ∧
  (new.clt = old.clt ∨ new.clt.isSome = true) ∧
  (new.iat = old.iat ∨ new.iat.isSome = true) ∧
  (new.oil_temp = old.oil_temp ∨ new.oil_temp.isSome = true) ∧
  (new.fuel_temp = old.fuel_temp ∨ new.fuel_temp.isSome = true) ∧
  (new.egt1 = old.egt1 ∨ new.egt1.isSome = true) ∧
  (new.egt2 = old.egt2 ∨ new.egt2.isSome = true) ∧
  (new.oil_pressure = old.oil_pressure ∨ new.oil_pressure.isSome = true) ∧
  (new.pwm_duty = old.pwm_duty ∨ ∀ v ∈ new.pwm_duty, v.isSome = true)

theorem xor_lt_256 {a b : Nat} (ha : a < 256) (hb : b < 256) :
    a ^^^ b < 256 :=
  Nat.xor_lt_two_pow (n := 8) ha hb

theorem crcStep_eq_spec (acc b : Nat) :
    crcStep acc b = crcSpecStep acc (b % 256) := by
  have hd1 : (b % 256) ^^^ (acc % 256) < 256 :=
    xor_lt_256 (Nat.mod_lt _ (by norm_num)) (Nat.mod_lt _ (by norm_num))
  have hd : ((b % 256) ^^^ (acc % 256)) ^^^
      ((((b % 256) ^^^ (acc % 256)) <<< 4) % 256) < 256 :=
    xor_lt_256 hd1 (Nat.mod_lt _ (by norm_num))
  have hd16 : (((b % 256) ^^^ (acc % 256)) ^^^
      ((((b % 256) ^^^ (acc % 256)) <<< 4) % 256)) / 16 < 256 :=
    lt_of_le_of_lt (Nat.div_le_self _ _) hd
  simp only [crcStep, crcSpecStep, Nat.shiftRight_eq_div_pow]
  norm_num [Nat.mod_eq_of_lt hd16]

theorem crcRun_eq_spec (buf : Nat → Nat) (n : Nat) :
    crcRun buf n = crcSpecOf ((List.range n).map (fun i => buf i % 256)) := by
  induction n with
  | zero => simp [crcRun, crcSpecOf]
  | succ k ih =>
      rw [crcRun, List.range_succ, List.map_append, crcSpecOf,
        List.foldl_append, ih, crcSpecOf]
      simp [crcStep_eq_spec]

/-- CRC depends only on the first `n` bytes. -/
theorem crcRun_congr (f g : Nat → Nat) (n : Nat)
    (h : ∀ i, i < n → f i = g i) : crcRun f n = crcRun g n := by
  induction n with
  | zero => rfl
  | succ k ih =>
      rw [crcRun, crcRun, ih (fun i hi => h i (Nat.lt_succ_of_lt hi)),
        h k (Nat.lt_succ_self k)]

/-- Claim C1: for every byte buffer whose first byte `L` lies in `[4,48]`,
the decoder's `checksum` and the emulator's `calcChecksum` both return the
16-bit value computed by the spec's accumulator recurrence over
`bytes[0 .. L-2]`, and in particular agree with each other. -/
theorem checksum_agrees_with_spec (buf : Nat → Nat)
    (h4 : 4 ≤ buf 0 % 256) (h48 : buf 0 % 256 ≤ 48) :
    checksum buf =
      crcSpecOf ((List.range (buf 0 % 256 - 1)).map (fun i => buf i % 256)) ∧
    calcChecksum buf =
      crcSpecOf ((List.range (buf 0 % 256 - 1)).map (fun i => buf i % 256)) ∧
    checksum buf = calcChecksum buf := by
  have hlen : (buf 0 % 256 + 254) % 256 = buf 0 % 256 - 2 := by
    omega
  have hng : ¬ 62 ≤ (buf 0 % 256 + 254) % 256 := by omega
  have hcnt : (buf 0 % 256 + 254) % 256 + 1 = buf 0 % 256 - 1 := by omega
  constructor
  · rw [checksum, if_neg hng, hcnt, crcRun_eq_spec]
  constructor
  · rw [calcChecksum, hcnt, crcRun_eq_spec]
  · rw [checksum, if_neg hng, calcChecksum]

/-- Witness for C1 at the concrete buffer `0x04 0x00 0x00 …`. -/
theorem checksum_agrees_with_spec_witness :
    checksum (bufOf [4, 0, 0]) =
      crcSpecOf ((List.range (bufOf [4, 0, 0] 0 % 256 - 1)).map
        (fun i => bufOf [4, 0, 0] i % 256)) ∧
    calcChecksum (bufOf [4, 0, 0]) =
      crcSpecOf ((List.range (bufOf [4, 0, 0] 0 % 256 - 1)).map
        (fun i => bufOf [4, 0, 0] i % 256)) ∧
    checksum (bufOf [4, 0, 0]) = calcChecksum (bufOf [4, 0, 0]) :=
  checksum_agrees_with_spec (bufOf [4, 0, 0]) (by decide) (by decide)

/-- Claim C5: while the parser is in sync states 1-3 or the version state,
a byte failing the expected-byte test resets the machine to the initial
sync state and re-evaluates that same byte against the first sync byte
within the same call: the result equals running the byte from state 0, and
equals state 1 exactly when the byte is the first sync byte `0x55`. -/
theorem resync_reevaluates_byte (s : ParserState) (b : Nat)
    (h : (s.rxstate = 1 ∧ b % 256 ≠ 0x00) ∨ (s.rxstate = 2 ∧ b % 256 ≠ 0xAA) ∨
         (s.rxstate = 3 ∧ b % 256 ≠ 0x00) ∨ (s.rxstate = 4 ∧ b % 256 ≠ 0x54)) :
    feedByte s b = feedByte { s with rxstate := 0 } b ∧
    feedByte s b = (if b % 256 = 0x55 then { s with rxstate := 1 }
                    else { s with rxstate := 0 }) := by
  rcases h with ⟨h1, hb⟩ | ⟨h1, hb⟩ | ⟨h1, hb⟩ | ⟨h1, hb⟩ <;>
    by_cases h55 : b % 256 = 0x55 <;>
    simp [feedByte, h1, hb, h55]

/-- Witness for C5: state 4 receiving `0x55` (not the version byte). -/
theorem resync_reevaluates_byte_witness :
    feedByte { initState with rxstate := 4 } 0x55 =
      feedByte { { initState with rxstate := 4 } with rxstate := 0 } 0x55 ∧
    feedByte { initState with rxstate := 4 } 0x55 =
      (if 0x55 % 256 = 0x55 then { { initState with rxstate := 4 } with rxstate := 1 }
       else { { initState with rxstate := 4 } with rxstate := 0 }) :=
  resync_reevaluates_byte { initState with rxstate := 4 } 0x55
    (Or.inr (Or.inr (Or.inr ⟨rfl, by decide⟩)))

/-- Claim C4: when the parser completes accumulating a frame whose trailing
little-endian checksum differs from the computed checksum, the `uint32`
error counter increments by exactly 1, every other telemetry field and the
new-data flag are unchanged, and the parser returns to the initial sync
state. -/
theorem crc_mismatch_counts_error (s : ParserState) (b : Nat)
    (h6 : s.rxstate = 6)
    (hdone : byteAt (storeByte s (b % 256)) 0 < (s.rxptr + 1) % 256)
    (hcrc : checksum (storeByte s (b % 256)) ≠
      byteAt (storeByte s (b % 256)) (((s.rxptr + 1) % 256 + 254) % 256) +
        256 * byteAt (storeByte s (b % 256)) (((s.rxptr + 1) % 256 + 255) % 256)) :
    (feedByte s b).ecu =
      { s.ecu with error_count := (s.ecu.error_count + 1) % 4294967296 } ∧
    (feedByte s b).newData = s.newData ∧
    (feedByte s b).rxstate = 0 := by
  simp only [Nat.mod_add_mod] at hcrc
  simp [feedByte, h6, hdone, hcrc]

/-- Witness for C4 at the concrete state `stBadCrc` receiving byte 0. -/
theorem crc_mismatch_counts_error_witness :
    (feedByte stBadCrc 0).ecu =
      { stBadCrc.ecu with
        error_count := (stBadCrc.ecu.error_count + 1) % 4294967296 } ∧
    (feedByte stBadCrc 0).newData = stBadCrc.newData ∧
    (feedByte stBadCrc 0).rxstate = 0 :=
  crc_mismatch_counts_error stBadCrc 0 rfl (by decide) (by decide)

/-- Claim C10: a checksum-verified frame whose slow-variant index byte
(`rxbuf[24]`) is 10 or greater is still accepted: the fast channels are
decoded, `connected` is set, the packet counter increments, the new-data
flag is raised and the parser returns to sync — while every slow-variant
field keeps its previous value (the record update below names exactly the
fields that change). -/
theorem slow_variant_overflow_keeps_slow_fields (s : ParserState) (b : Nat)
    (h6 : s.rxstate = 6)
    (hdone : byteAt (storeByte s (b % 256)) 0 < (s.rxptr + 1) % 256)
    (hcrc : checksum (storeByte s (b % 256)) =
      byteAt (storeByte s (b % 256)) (((s.rxptr + 1) % 256 + 254) % 256) +
        256 * byteAt (storeByte s (b % 256)) (((s.rxptr + 1) % 256 + 255) % 256))
    (hslow : 10 ≤ byteAt (storeByte s (b % 256)) 24) :
    (feedByte s b).ecu =
      { s.ecu with
        runlevel := byteAt (storeByte s (b % 256)) 2
        ign_angle := some ((readI16 (storeByte s (b % 256)) 3 : ℚ) * (1/4))
        fuel_flow := some ((byteAt (storeByte s (b % 256)) 5 : ℚ) * (1/16))
        rpm := some (if 0 < readU16 (storeByte s (b % 256)) 6
          then (10000000 : ℚ) / (readU16 (storeByte s (b % 256)) 6 : ℚ) else 0)
        inj_time_ms := some ((readU16 (storeByte s (b % 256)) 8 : ℚ) * (1/250))
        knock_v := some ((byteAt (storeByte s (b % 256)) 10 : ℚ) * (5/256))
        tps := some ((byteAt (storeByte s (b % 256)) 11 : ℚ) * (100/255))
        dbw_pos := some ((byteAt (storeByte s (b % 256)) 12 : ℚ) * (100/255))
        map_kpa := some ((byteAt (storeByte s (b % 256)) 13 : ℚ) * 2)
        lambda := some ((byteAt (storeByte s (b % 256)) 14 : ℚ) * (1/128))
        cyl_no := byteAt (storeByte s (b % 256)) 15
        transient_corr := toI8 (byteAt (storeByte s (b % 256)) 16)
        speed := some ((byteAt (storeByte s (b % 256)) 17 : ℚ))
        connected := true
        packet_count := (s.ecu.packet_count + 1) % 4294967296 } ∧
    (feedByte s b).newData = true ∧
    (feedByte s b).rxstate = 0 := by
  have hlt : ¬ byteAt (storeByte s (b % 256)) 24 < 10 := by omega
  simp only [Nat.mod_add_mod] at hcrc
  simp [feedByte, h6, hdone, hcrc, parsePacket, hlt, parseFast]

/-- Witness for C10 at the concrete state `stSlowOverflow` (slow id byte
10) receiving the matching final CRC byte 63. -/
theorem slow_variant_overflow_keeps_slow_fields_witness :
    (feedByte stSlowOverflow 63).ecu =
      { stSlowOverflow.ecu with
        runlevel := byteAt (storeByte stSlowOverflow (63 % 256)) 2
        ign_angle := some ((readI16 (storeByte stSlowOverflow (63 % 256)) 3 : ℚ) * (1/4))
        fuel_flow := some ((byteAt (storeByte stSlowOverflow (63 % 256)) 5 : ℚ) * (1/16))
        rpm := some (if 0 < readU16 (storeByte stSlowOverflow (63 % 256)) 6
          then (10000000 : ℚ) / (readU16 (storeByte stSlowOverflow (63 % 256)) 6 : ℚ) else 0)
        inj_time_ms := some ((readU16 (storeByte stSlowOverflow (63 % 256)) 8 : ℚ) * (1/250))
        knock_v := some ((byteAt (storeByte stSlowOverflow (63 % 256)) 10 : ℚ) * (5/256))
        tps := some ((byteAt (storeByte stSlowOverflow (63 % 256)) 11 : ℚ) * (100/255))
        dbw_pos := some ((byteAt (storeByte stSlowOverflow (63 % 256)) 12 : ℚ) * (100/255))
        map_kpa := some ((byteAt (storeByte stSlowOverflow (63 % 256)) 13 : ℚ) * 2)
        lambda := some ((byteAt (storeByte stSlowOverflow (63 % 256)) 14 : ℚ) * (1/128))
        cyl_no := byteAt (storeByte stSlowOverflow (63 % 256)) 15
        transient_corr := toI8 (byteAt (storeByte stSlowOverflow (63 % 256)) 16)
        speed := some ((byteAt (storeByte stSlowOverflow (63 % 256)) 17 : ℚ))
        connected := true
        packet_count := (stSlowOverflow.ecu.packet_count + 1) % 4294967296 } ∧
    (feedByte stSlowOverflow 63).newData = true ∧
    (feedByte stSlowOverflow 63).rxstate = 0 :=
  slow_variant_overflow_keeps_slow_fields stSlowOverflow 63 rfl
    (by decide) (by decide) (by decide)

/-- Claim C7: for every bus-frame identifier outside the recognised set and
any payload, `invent_ems_feed_can_frame` reports "not recognised" and
leaves the whole telemetry record and the new-data signal unchanged. -/
theorem unknown_can_id_is_noop (e : EcuData) (nd : Bool) (id : Nat)
    (d : Nat → Nat) (h : id ∉ canIds) :
    feedCanFrame e nd id d = (false, e, nd) := by
  simp only [canIds, List.mem_cons, List.not_mem_nil, or_false, not_or] at h
  obtain ⟨h1, h2, h3, h4, h5, h6, h7⟩ := h
  simp [feedCanFrame, canDecode, h1, h2, h3, h4, h5, h6, h7]

/-- Witness for C7 at identifier `0x303` (emitted by the emulator but not
recognised by the decoder) with an all-zero payload. -/
theorem unknown_can_id_is_noop_witness :
    feedCanFrame initEcu false 0x303 (bufOf []) = (false, initEcu, false) :=
  unknown_can_id_is_noop initEcu false 0x303 (bufOf []) (by decide)

theorem size_succ_arith {H T N : Nat} (hh : H < N) (ht : T < N)
    (hfull : (H + 1) % N ≠ T) :
    ((H + 1) % N + N - T) % N = (H + N - T) % N + 1 := by
  by_cases hc : H + 1 < N
  · have h1 : (H + 1) % N = H + 1 := Nat.mod_eq_of_lt hc
    rw [h1] at hfull ⊢
    by_cases h2 : T ≤ H
    · have a1 : (H + 1 + N - T) % N = H + 1 - T := by
        rw [show H + 1 + N - T = H + 1 - T + N by omega, Nat.add_mod_right,
          Nat.mod_eq_of_lt (by omega)]
      have a2 : (H + N - T) % N = H - T := by
        rw [show H + N - T = H - T + N by omega, Nat.add_mod_right,
          Nat.mod_eq_of_lt (by omega)]
      omega
    · have a1 : (H + 1 + N - T) % N = H + 1 + N - T := Nat.mod_eq_of_lt (by omega)
      have a2 : (H + N - T) % N = H + N - T := Nat.mod_eq_of_lt (by omega)
      omega
  · have h1 : (H + 1) % N = 0 := by rw [show H + 1 = N by omega, Nat.mod_self]
    rw [h1] at hfull ⊢
    have a1 : (0 + N - T) % N = N - T := by
      rw [Nat.zero_add, Nat.mod_eq_of_lt (by omega)]
    have a2 : (H + N - T) % N = H - T := by
      rw [show H + N - T = H - T + N by omega, Nat.add_mod_right,
        Nat.mod_eq_of_lt (by omega)]
    omega

theorem idx_last_arith {H T N : Nat} (hh : H < N) (ht : T < N) :
    (T + (H + N - T) % N) % N = H := by
  by_cases h2 : T ≤ H
  · have a2 : (H + N - T) % N = H - T := by
      rw [show H + N - T = H - T + N by omega, Nat.add_mod_right,
        Nat.mod_eq_of_lt (by omega)]
    rw [a2, show T + (H - T) = H by omega, Nat.mod_eq_of_lt hh]
  · have a2 : (H + N - T) % N = H + N - T := Nat.mod_eq_of_lt (by omega)
    rw [a2, show T + (H + N - T) = H + N by omega, Nat.add_mod_right,
      Nat.mod_eq_of_lt hh]

theorem idx_mid_arith {H T N k : Nat} (hh : H < N) (ht : T < N)
    (hk : k < (H + N - T) % N) : (T + k) % N ≠ H := by
  by_cases h2 : T ≤ H
  · have a2 : (H + N - T) % N = H - T := by
      rw [show H + N - T = H - T + N by omega, Nat.add_mod_right,
        Nat.mod_eq_of_lt (by omega)]
    rw [a2] at hk
    rw [Nat.mod_eq_of_lt (by omega)]
    omega
  · have a2 : (H + N - T) % N = H + N - T := Nat.mod_eq_of_lt (by omega)
    rw [a2] at hk
    by_cases h3 : T + k < N
    · rw [Nat.mod_eq_of_lt h3]; omega
    · rw [show T + k = T + k - N + N by omega, Nat.add_mod_right,
        Nat.mod_eq_of_lt (by omega)]
      omega

theorem size_pred_arith {H T N : Nat} (hh : H < N) (ht : T < N) (hne : T ≠ H) :
    (H + N - (T + 1) % N) % N + 1 = (H + N - T) % N := by
  by_cases hc : T + 1 < N
  · have h1 : (T + 1) % N = T + 1 := Nat.mod_eq_of_lt hc
    rw [h1]
    by_cases h2 : T < H
    · have a1 : (H + N - (T + 1)) % N = H - T - 1 := by
        rw [show H + N - (T + 1) = H - T - 1 + N by omega, Nat.add_mod_right,
          Nat.mod_eq_of_lt (by omega)]
      have a2 : (H + N - T) % N = H - T := by
        rw [show H + N - T = H - T + N by omega, Nat.add_mod_right,
          Nat.mod_eq_of_lt (by omega)]
      omega
    · have a1 : (H + N - (T + 1)) % N = H + N - T - 1 :=
        Nat.mod_eq_of_lt (by omega)
      have a2 : (H + N - T) % N = H + N - T := Nat.mod_eq_of_lt (by omega)
      omega
  · have h1 : (T + 1) % N = 0 := by rw [show T + 1 = N by omega, Nat.mod_self]
    rw [h1]
    have a1 : (H + N - 0) % N = H := by
      rw [Nat.sub_zero, Nat.add_mod_right, Nat.mod_eq_of_lt hh]
    have a2 : (H + N - T) % N = H + 1 := by
      rw [show H + N - T = H + 1 by omega, Nat.mod_eq_of_lt (by omega)]
    omega

theorem ringSize_zero {α : Type} {N : Nat} {r : RxRing α} (hN : 0 < N)
    (he : r.tail = r.head) : ringSize N r = 0 := by
  unfold ringSize
  rw [he, show r.head + N - r.head = N by omega, Nat.mod_self]

theorem ringPush_full {α : Type} (N : Nat) (r : RxRing α) (x : α)
    (hfull : (r.head + 1) % N = r.tail) : ringPush N r x = r := by
  simp [ringPush, hfull]

theorem ringPush_head {α : Type} (N : Nat) (r : RxRing α) (x : α)
    (hfull : (r.head + 1) % N ≠ r.tail) :
    (ringPush N r x).head = (r.head + 1) % N := by
  simp [ringPush, hfull]

theorem ringPush_tail {α : Type} (N : Nat) (r : RxRing α) (x : α)
    (hfull : (r.head + 1) % N ≠ r.tail) :
    (ringPush N r x).tail = r.tail := by
  simp [ringPush, hfull]

theorem ringPush_buf {α : Type} (N : Nat) (r : RxRing α) (x : α)
    (hfull : (r.head + 1) % N ≠ r.tail) :
    (ringPush N r x).buf = fun i => if i = r.head then x else r.buf i := by
  simp [ringPush, hfull]

theorem ringPush_contents {α : Type} (N : Nat) (r : RxRing α) (x : α)
    (hh : r.head < N) (ht : r.tail < N)
    (hfull : (r.head + 1) % N ≠ r.tail) :
    ringContents N (ringPush N r x) = ringContents N r ++ [x] := by
  have hsz : ringSize N (ringPush N r x) = ringSize N r + 1 := by
    unfold ringSize
    rw [ringPush_head N r x hfull, ringPush_tail N r x hfull]
    exact size_succ_arith hh ht hfull
  unfold ringContents
  rw [hsz, ringPush_tail N r x hfull, ringPush_buf N r x hfull,
    List.range_succ, List.map_append]
  congr 1
  · apply List.map_congr_left
    intro k hk
    rw [List.mem_range] at hk
    simp only [if_neg (idx_mid_arith hh ht hk)]
  · simp only [List.map_cons, List.map_nil]
    unfold ringSize
    rw [if_pos (idx_last_arith hh ht)]

theorem ringPop_fifo {α : Type} (N : Nat) (r : RxRing α)
    (hh : r.head < N) (ht : r.tail < N) :
    (ringPop N r).1 = (ringContents N r).head? ∧
    ringContents N (ringPop N r).2 = (ringContents N r).tail := by
  have hN : 0 < N := by omega
  by_cases he : r.tail = r.head
  · have hsz : ringSize N r = 0 := ringSize_zero hN he
    constructor
    · simp [ringPop, he, ringContents, hsz]
    · simp [ringPop, he, ringContents, hsz]
  · have hsz : 0 < ringSize N r := by
      unfold ringSize
      by_cases h2 : r.tail ≤ r.head
      · rw [show r.head + N - r.tail = r.head - r.tail + N by omega,
          Nat.add_mod_right, Nat.mod_eq_of_lt (by omega)]
        omega
      · rw [Nat.mod_eq_of_lt (by omega)]
        omega
    obtain ⟨n, hn⟩ : ∃ n, ringSize N r = n + 1 := ⟨ringSize N r - 1, by omega⟩
    have htl : (ringPop N r).2.tail = (r.tail + 1) % N := by
      simp [ringPop, he]
    have hhd : (ringPop N r).2.head = r.head := by
      simp [ringPop, he]
    have hbf : (ringPop N r).2.buf = r.buf := by
      simp [ringPop, he]
    have hsz2 : ringSize N (ringPop N r).2 = n := by
      have hn2 : (r.head + N - r.tail) % N = n + 1 := by
        unfold ringSize at hn
        exact hn
      have hps := size_pred_arith hh ht he
      unfold ringSize
      rw [htl, hhd]
      omega
    constructor
    · rw [ringPop, if_neg he]
      simp only [ringContents, hn, List.range_succ_eq_map, List.map_cons,
        List.head?_cons, Nat.add_zero, Nat.mod_eq_of_lt ht]
    · unfold ringContents
      rw [hsz2, hn, htl, hbf, List.range_succ_eq_map, List.map_cons,
        List.tail_cons, List.map_map]
      apply List.map_congr_left
      intro k hk
      simp only [Function.comp_apply, Nat.mod_add_mod]
      rw [show (r.tail + 1 + k) = r.tail + (k + 1) by omega]

theorem ringRun_index_bounds {α : Type} (N : Nat) (hN : 0 < N)
    (r : RxRing α) (hh : r.head < N) (ht : r.tail < N)
    (ops : List (RingOp α)) :
    (ringRun N r ops).head < N ∧ (ringRun N r ops).tail < N := by
  induction ops generalizing r with
  | nil => exact ⟨hh, ht⟩
  | cons op ops ih =>
      rw [ringRun]
      apply ih
      · cases op with
        | push x =>
            by_cases hfull : (r.head + 1) % N = r.tail
            · rw [ringStep, ringPush_full N r x hfull]; exact hh
            · rw [ringStep, ringPush_head N r x hfull]
              exact Nat.mod_lt _ hN
        | pop =>
            by_cases he : r.tail = r.head
            · have hid : ringStep N r RingOp.pop = r := by
                simp [ringStep, ringPop, he]
              rw [hid]
              exact hh
            · simp only [ringStep]
              rw [show (ringPop N r).2.head = r.head by simp [ringPop, he]]
              exact hh
      · cases op with
        | push x =>
            by_cases hfull : (r.head + 1) % N = r.tail
            · rw [ringStep, ringPush_full N r x hfull]; exact ht
            · rw [ringStep, ringPush_tail N r x hfull]; exact ht
        | pop =>
            by_cases he : r.tail = r.head
            · have hid : ringStep N r RingOp.pop = r := by
                simp [ringStep, ringPop, he]
              rw [hid]
              exact ht
            · simp only [ringStep]
              rw [show (ringPop N r).2.tail = (r.tail + 1) % N by
                simp [ringPop, he]]
              exact Nat.mod_lt _ hN

/-- Claim C8: for a single-producer/single-consumer ring buffer of capacity
`N` (the 256-slot UART byte ring of `pico_dashboard.cpp` and the 32-slot
CAN frame ring of `bsp_can.c` are the two instances): a push when the
buffer is full changes nothing (the newest item is dropped), otherwise the
item is stored and the producer index advances by one modulo `N` with the
item appended at the back of the queue; pops return the queued items oldest
first; and both indices remain within `[0, N)` under any interleaving of
pushes and pops. -/
theorem ring_buffer_spsc (α : Type) (N : Nat) (r : RxRing α) (x : α)
    (hN : 0 < N) (hh : r.head < N) (ht : r.tail < N) :
    ((r.head + 1) % N = r.tail → ringPush N r x = r) ∧
    ((r.head + 1) % N ≠ r.tail →
      (ringPush N r x).head = (r.head + 1) % N ∧
      ringContents N (ringPush N r x) = ringContents N r ++ [x]) ∧
    ((ringPop N r).1 = (ringContents N r).head? ∧
      ringContents N (ringPop N r).2 = (ringContents N r).tail) ∧
    (∀ ops, (ringRun N r ops).head < N ∧ (ringRun N r ops).tail < N) := by
  refine ⟨fun hfull => ringPush_full N r x hfull,
    fun hfull => ⟨ringPush_head N r x hfull, ringPush_contents N r x hh ht hfull⟩,
    ringPop_fifo N r hh ht,
    fun ops => ringRun_index_bounds N hN r hh ht ops⟩

/-- Witness for C8 at the two concrete instances: the 32-slot CAN ring and
the 256-slot UART ring, both starting empty, pushing item 7. -/
theorem ring_buffer_spsc_witness :
    (((⟨fun _ => 0, 0, 0⟩ : RxRing Nat).head + 1) % 32 =
        (⟨fun _ => 0, 0, 0⟩ : RxRing Nat).tail →
      ringPush 32 (⟨fun _ => 0, 0, 0⟩ : RxRing Nat) 7 = ⟨fun _ => 0, 0, 0⟩) ∧
    (((⟨fun _ => 0, 0, 0⟩ : RxRing Nat).head + 1) % 32 ≠
        (⟨fun _ => 0, 0, 0⟩ : RxRing Nat).tail →
      (ringPush 32 (⟨fun _ => 0, 0, 0⟩ : RxRing Nat) 7).head =
        ((⟨fun _ => 0, 0, 0⟩ : RxRing Nat).head + 1) % 32 ∧
      ringContents 32 (ringPush 32 (⟨fun _ => 0, 0, 0⟩ : RxRing Nat) 7) =
        ringContents 32 (⟨fun _ => 0, 0, 0⟩ : RxRing Nat) ++ [7]) ∧
    ((ringPop 32 (⟨fun _ => 0, 0, 0⟩ : RxRing Nat)).1 =
        (ringContents 32 (⟨fun _ => 0, 0, 0⟩ : RxRing Nat)).head? ∧
      ringContents 32 (ringPop 32 (⟨fun _ => 0, 0, 0⟩ : RxRing Nat)).2 =
        (ringContents 32 (⟨fun _ => 0, 0, 0⟩ : RxRing Nat)).tail) ∧
    (∀ ops, (ringRun 32 (⟨fun _ => 0, 0, 0⟩ : RxRing Nat) ops).head < 32 ∧
      (ringRun 32 (⟨fun _ => 0, 0, 0⟩ : RxRing Nat) ops).tail < 32) ∧
    (∀ ops, (ringRun 256 (⟨fun _ => 0, 0, 0⟩ : RxRing Nat) ops).head < 256 ∧
      (ringRun 256 (⟨fun _ => 0, 0, 0⟩ : RxRing Nat) ops).tail < 256) := by
  have h32 := ring_buffer_spsc Nat 32 ⟨fun _ => 0, 0, 0⟩ 7
    (by decide) (by decide) (by decide)
  have h256 := ring_buffer_spsc Nat 256 ⟨fun _ => 0, 0, 0⟩ 7
    (by decide) (by decide) (by decide)
  exact ⟨h32.1, h32.2.1, h32.2.2.1, h32.2.2.2, h256.2.2.2⟩

theorem writeList_eval (l : List Nat) : ∀ (f : Nat → Nat) (i j : Nat),
    writeList f i l j =
      if i ≤ j ∧ j < i + l.length then l.getD (j - i) 0 % 256 else f j := by
  induction l with
  | nil =>
      intro f i j
      rw [writeList, if_neg (by simp only [List.length_nil]; omega)]
  | cons b bs ih =>
      intro f i j
      rw [writeList, ih]
      by_cases h1 : j = i
      · subst h1
        rw [if_neg (by omega),
          if_pos (by simp only [List.length_cons]; omega)]
        simp [upd]
      · by_cases h2 : i + 1 ≤ j ∧ j < i + 1 + bs.length
        · rw [if_pos h2, if_pos (by simp only [List.length_cons]; omega)]
          rw [show j - i = j - (i + 1) + 1 by omega]
          simp [List.getD_cons_succ]
        · rw [if_neg h2, if_neg (by simp only [List.length_cons]; omega)]
          simp [upd, h1]

theorem crcRun_lt (buf : Nat → Nat) (n : Nat) : crcRun buf n < 65536 := by
  cases n with
  | zero => norm_num [crcRun]
  | succ k =>
      rw [crcRun, crcStep]
      exact Nat.mod_lt _ (by norm_num)

theorem checksum_congr {f g : Nat → Nat}
    (h0 : f 0 = g 0)
    (h : ∀ i, i < (f 0 % 256 + 254) % 256 + 1 → f i = g i) :
    checksum f = checksum g := by
  unfold checksum
  simp only
  rw [show g 0 = f 0 from h0.symm]
  by_cases hc : 62 ≤ (f 0 % 256 + 254) % 256
  · rw [if_pos hc, if_pos hc]
  · rw [if_neg hc, if_neg hc]
    exact crcRun_congr f g _ h

theorem countDecodes_append (l1 : List Nat) : ∀ (s : ParserState) (l2 : List Nat),
    countDecodes s (l1 ++ l2) =
      countDecodes s l1 + countDecodes (feedBytes s l1) l2 := by
  induction l1 with
  | nil => intro s l2; simp [countDecodes, feedBytes]
  | cons b bs ih =>
      intro s l2
      rw [List.cons_append, countDecodes, countDecodes, ih]
      rw [show feedBytes s (b :: bs) = feedBytes (feedByte s b) bs from rfl]
      omega

theorem feedBytes_append (s : ParserState) (l1 l2 : List Nat) :
    feedBytes s (l1 ++ l2) = feedBytes (feedBytes s l1) l2 := by
  simp [feedBytes]

theorem feed_accum (chunk : List Nat) : ∀ (s : ParserState),
    s.rxstate = 6 → 1 ≤ s.rxptr →
    s.rxptr + chunk.length ≤ byteAt s.rxbuf 0 → byteAt s.rxbuf 0 ≤ 48 →
    feedBytes s chunk =
      { s with rxbuf := writeList s.rxbuf s.rxptr chunk,
               rxptr := s.rxptr + chunk.length } ∧
    countDecodes s chunk = 0 := by
  induction chunk with
  | nil =>
      intro s h6 h1 hle h48
      constructor
      · simp [feedBytes, writeList]
      · rfl
  | cons b bs ih =>
      intro s h6 h1 hle h48
      rw [List.length_cons] at hle
      have hptr48 : s.rxptr < 48 := by omega
      have hmod : (s.rxptr + 1) % 256 = s.rxptr + 1 := Nat.mod_eq_of_lt (by omega)
      have hb0 : storeByte s (b % 256) 0 = s.rxbuf 0 := by
        simp [storeByte, upd, show s.rxptr < 64 from by omega,
          show ¬ (0 : Nat) = s.rxptr from by omega]
      have hnc : ¬ byteAt (storeByte s (b % 256)) 0 < (s.rxptr + 1) % 256 := by
        rw [hmod]
        unfold byteAt
        rw [hb0]
        unfold byteAt at hle
        omega
      rw [hmod] at hnc
      have hstep : feedByte s b =
          { s with rxbuf := storeByte s (b % 256), rxptr := s.rxptr + 1 } := by
        simp [feedByte, h6, hmod, hnc]
      have hdec : decodedOne s b = false := by
        simp [decodedOne, h6, hmod, hnc]
      have hsb : storeByte s (b % 256) = upd s.rxbuf s.rxptr (b % 256) := by
        unfold storeByte
        rw [if_pos (by omega : s.rxptr < 64)]
        simp [upd]
      obtain ⟨ih1, ih2⟩ := ih
        { s with rxbuf := storeByte s (b % 256), rxptr := s.rxptr + 1 }
        (by simp [h6]) (by simp) (by simp only; unfold byteAt; rw [hb0]; unfold byteAt at hle; omega)
        (by simp only; unfold byteAt; rw [hb0]; exact h48)
      constructor
      · show feedBytes s (b :: bs) = _
        rw [show feedBytes s (b :: bs) = feedBytes (feedByte s b) bs from rfl,
          hstep, ih1]
        simp only [writeList, List.length_cons]
        rw [hsb, show s.rxptr + 1 + bs.length = s.rxptr + (bs.length + 1) from
          by omega]
      · rw [countDecodes, hdec, hstep, ih2]
        simp

theorem getD_lt_len {l : List Nat} {n : Nat} (h : n < l.length) :
    l.getD n 0 = l[n] := by
  simp [List.getD_eq_getElem?_getD, List.getElem?_eq_getElem h]


theorem count_final_byte (t : ParserState) (L : Nat) (body : List Nat) (c : Nat)
    (h6 : t.rxstate = 6) (hptr : t.rxptr = L) (h4 : 4 ≤ L) (h48 : L ≤ 48)
    (hagree : ∀ j, j ≤ L → upd t.rxbuf L (c % 256) j = bufOf (L :: body) j)
    (hlenb : body.length = L) (hbytes : ∀ b ∈ body, b < 256)
    (hcrc : checksum (bufOf (L :: body)) =
      body.getD (L - 2) 0 + 256 * body.getD (L - 1) 0) :
    countDecodes t [c] = 1 := by
  have hstoreb : storeByte t (c % 256) = upd t.rxbuf L (c % 256) := by
    unfold storeByte
    rw [hptr, if_pos (by omega), Nat.mod_mod_of_dvd c (Nat.dvd_refl 256)]
  have hb0 : byteAt (storeByte t (c % 256)) 0 = L := by
    rw [hstoreb]
    unfold byteAt
    rw [hagree 0 (by omega)]
    simp [bufOf, Nat.mod_eq_of_lt (show L < 256 by omega)]
  have hptr1 : (t.rxptr + 1) % 256 = L + 1 := by
    rw [hptr]
    exact Nat.mod_eq_of_lt (by omega)
  have hidx1 : (L + 1 + 254) % 256 = L - 1 := by omega
  have hidx2 : (L + 1 + 255) % 256 = L := by omega
  have hv1 : byteAt (storeByte t (c % 256)) (L - 1) = body.getD (L - 2) 0 := by
    rw [hstoreb]
    unfold byteAt
    rw [hagree (L - 1) (by omega)]
    have hb : bufOf (L :: body) (L - 1) = body.getD (L - 2) 0 := by
      show (L :: body).getD (L - 1) 0 = _
      rw [show L - 1 = (L - 2) + 1 by omega, List.getD_cons_succ]
    rw [hb]
    have hm : body.getD (L - 2) 0 < 256 := by
      rw [getD_lt_len (by omega)]
      exact hbytes _ (List.getElem_mem _)
    exact Nat.mod_eq_of_lt hm
  have hv2 : byteAt (storeByte t (c % 256)) L = body.getD (L - 1) 0 := by
    rw [hstoreb]
    unfold byteAt
    rw [hagree L (by omega)]
    have hb : bufOf (L :: body) L = body.getD (L - 1) 0 := by
      show (L :: body).getD L 0 = _
      rw [show L = (L - 1) + 1 by omega, List.getD_cons_succ]
      rw [show L - 1 + 1 - 1 = L - 1 by omega]
    rw [hb]
    have hm : body.getD (L - 1) 0 < 256 := by
      rw [getD_lt_len (by omega)]
      exact hbytes _ (List.getElem_mem _)
    exact Nat.mod_eq_of_lt hm
  have hchk : checksum (storeByte t (c % 256)) = checksum (bufOf (L :: body)) := by
    rw [hstoreb]
    apply checksum_congr (by rw [hagree 0 (by omega)])
    intro i hi
    have hf0 : upd t.rxbuf L (c % 256) 0 = L := by
      rw [hagree 0 (by omega)]
      simp [bufOf]
    rw [hf0, show (L % 256 + 254) % 256 = L - 2 by omega] at hi
    exact hagree i (by omega)
  have hdec : decodedOne t c = true := by
    simp only [decodedOne, h6, hptr1, hidx1, hidx2, hb0, hv1, hv2, hchk, hcrc]
    simp
  rw [countDecodes, countDecodes, hdec]
  simp

theorem decode_one_valid_frame (s : ParserState) (hs : s.rxstate = 0)
    (L : Nat) (body : List Nat) (hlen : body.length = L)
    (h4 : 4 ≤ L) (h48 : L ≤ 48) (hbytes : ∀ b ∈ body, b < 256)
    (hcrc : checksum (bufOf (L :: body)) =
      body.getD (L - 2) 0 + 256 * body.getD (L - 1) 0) :
    countDecodes s (0x55 :: 0x00 :: 0xAA :: 0x00 :: 0x54 :: L :: body) = 1 := by
  have hL256 : L % 256 = L := Nat.mod_eq_of_lt (by omega)
  have e1 : feedByte s 0x55 = { s with rxstate := 1 } := by
    simp [feedByte, hs]
  have e2 : feedByte { s with rxstate := 1 } 0x00 = { s with rxstate := 2 } := by
    simp [feedByte]
  have e3 : feedByte { s with rxstate := 2 } 0xAA = { s with rxstate := 3 } := by
    simp [feedByte]
  have e4 : feedByte { s with rxstate := 3 } 0x00 = { s with rxstate := 4 } := by
    simp [feedByte]
  have e5 : feedByte { s with rxstate := 4 } 0x54 = { s with rxstate := 5 } := by
    simp [feedByte]
  have e6 : feedByte { s with rxstate := 5 } L =
      { s with rxstate := 6, rxbuf := upd s.rxbuf 0 L, rxptr := 1 } := by
    simp [feedByte, hL256, h4, h48]
  have hhdr : countDecodes s (0x55 :: 0x00 :: 0xAA :: 0x00 :: 0x54 :: L :: body) =
      countDecodes { s with rxstate := 6, rxbuf := upd s.rxbuf 0 L, rxptr := 1 }
        body := by
    rw [countDecodes, countDecodes, countDecodes, countDecodes, countDecodes,
      countDecodes, e1, e2, e3, e4, e5, e6]
    simp [decodedOne, hs]
  rw [hhdr]
  have hne : body ≠ [] := by
    intro h
    rw [h] at hlen
    simp at hlen
    omega
  have hsplit : body.dropLast ++ [body.getLast hne] = body :=
    List.dropLast_append_getLast hne
  have hbslen : body.dropLast.length = L - 1 := by
    rw [List.length_dropLast, hlen]
  have hc256 : body.getLast hne < 256 := hbytes _ (List.getLast_mem hne)
  have hcval : body.getLast hne = body.getD (L - 1) 0 := by
    rw [List.getLast_eq_getElem, getD_lt_len (by omega)]
    congr 1
    omega
  obtain ⟨ha1, ha2⟩ := feed_accum body.dropLast
    { s with rxstate := 6, rxbuf := upd s.rxbuf 0 L, rxptr := 1 }
    (by simp) (by simp)
    (by simp [byteAt, upd, hL256, hbslen]; omega)
    (by simp [byteAt, upd, hL256, h48])
  rw [← hsplit, countDecodes_append, ha2, ha1]
  simp only [Nat.zero_add]
  have hw := writeList_eval body.dropLast (upd s.rxbuf 0 L) 1
  have hbufj : ∀ j, j ≤ L - 1 →
      writeList (upd s.rxbuf 0 L) 1 body.dropLast j = bufOf (L :: body) j := by
    intro j hj
    rw [hw]
    by_cases hj0 : j = 0
    · subst hj0
      rw [if_neg (by omega)]
      simp [upd, bufOf]
    · rw [if_pos (by rw [hbslen]; omega)]
      have hjlt : j - 1 < body.dropLast.length := by rw [hbslen]; omega
      have hl : body.dropLast.getD (j - 1) 0 = body.getD (j - 1) 0 := by
        rw [getD_lt_len hjlt, getD_lt_len (by rw [hlen]; omega),
          List.getElem_dropLast]
      have hmask : body.getD (j - 1) 0 % 256 = body.getD (j - 1) 0 := by
        rw [getD_lt_len (by rw [hlen]; omega)]
        exact Nat.mod_eq_of_lt (hbytes _ (List.getElem_mem _))
      have hr : bufOf (L :: body) j = body.getD (j - 1) 0 := by
        show (L :: body).getD j 0 = _
        rw [show j = j - 1 + 1 by omega]
        simp
      rw [hl, hmask, hr]
  have hrx7 : (1 : Nat) + body.dropLast.length = L := by
    rw [hbslen]
    omega
  have hstore : ∀ j, j ≤ L →
      upd (writeList (upd s.rxbuf 0 L) 1 body.dropLast) L
        (body.getLast hne % 256) j = bufOf (L :: body) j := by
    intro j hj
    by_cases hjL : j = L
    · rw [hjL]
      simp only [upd, if_pos]
      rw [Nat.mod_eq_of_lt hc256, hcval]
      have hr : bufOf (L :: body) L = body.getD (L - 1) 0 := by
        show (L :: body).getD L 0 = _
        rw [show L = L - 1 + 1 by omega]
        simp
      rw [hr]
    · simp only [upd]
      rw [if_neg hjL]
      exact hbufj j (by omega)
  exact count_final_byte _ L body _ rfl hrx7 h4 h48 hstore hlen hbytes hcrc

theorem mod256_lt (a : Nat) : a % 256 < 256 := Nat.mod_lt _ (by norm_num)

theorem buildTxPayload_length (r : TxRaw) : (buildTxPayload r).length = 36 := by
  simp [buildTxPayload, lo16, hi16, Nat.min_eq_left (show 11 ≤ r.slow.length + 11 by omega)]

theorem buildTxPayload_head (r : TxRaw) :
    buildTxPayload r = 37 :: (buildTxPayload r).drop 1 := by
  rw [buildTxPayload]
  rfl


theorem buildTxPayload_bytes (r : TxRaw) : ∀ b ∈ buildTxPayload r, b < 256 := by
  intro b hb
  rw [buildTxPayload] at hb
  rcases List.mem_append.mp hb with h | h
  · simp only [lo16, hi16, List.mem_cons, List.not_mem_nil, or_false] at h
    rcases h with rfl | rfl | rfl | rfl | rfl | rfl | rfl | rfl | rfl | rfl |
      rfl | rfl | rfl | rfl | rfl | rfl | rfl | rfl | rfl | rfl | rfl | rfl |
      rfl | rfl | rfl <;>
      first
      | exact mod256_lt _
      | norm_num
  · have h2 := List.take_subset 11 _ h
    rcases List.mem_append.mp h2 with h3 | h3
    · obtain ⟨x, _, rfl⟩ := List.mem_map.mp h3
      exact mod256_lt _
    · rw [List.eq_of_mem_replicate h3]
      norm_num

theorem crc_le_bytes (c : Nat) (hc : c < 65536) :
    c % 256 + 256 * (c / 256 % 256) = c := by
  omega

theorem buildTxPayload_getD0 (r : TxRaw) : (buildTxPayload r).getD 0 0 = 37 := by
  rw [buildTxPayload]
  rfl

theorem emu_frame_split (r : TxRaw) :
    buildAndSendFrame r =
      0x55 :: 0x00 :: 0xAA :: 0x00 :: 0x54 :: 37 ::
        ((buildTxPayload r).drop 1 ++
          [calcChecksum (bufOf (buildTxPayload r)) % 256,
           calcChecksum (bufOf (buildTxPayload r)) / 256 % 256]) := by
  show [0x55, 0x00, 0xAA, 0x00, 0x54] ++ buildTxPayload r ++
      [calcChecksum (bufOf (buildTxPayload r)) % 256,
       calcChecksum (bufOf (buildTxPayload r)) / 256 % 256] = _
  nth_rewrite 1 [buildTxPayload_head r]
  simp

theorem emu_frame_valid (r : TxRaw) : ValidFrame (buildAndSendFrame r) := by
  refine ⟨37, (buildTxPayload r).drop 1 ++
    [calcChecksum (bufOf (buildTxPayload r)) % 256,
     calcChecksum (bufOf (buildTxPayload r)) / 256 % 256],
    emu_frame_split r, ?_, by omega, by omega, ?_, ?_⟩
  · rw [List.length_append, List.length_drop, buildTxPayload_length]
    rfl
  · intro b hb
    rcases List.mem_append.mp hb with h | h
    · exact buildTxPayload_bytes r b (List.drop_subset _ _ h)
    · simp only [List.mem_cons, List.not_mem_nil, or_false] at h
      rcases h with rfl | rfl <;> exact mod256_lt _
  · have hlen1 : ((buildTxPayload r).drop 1).length = 35 := by
      rw [List.length_drop, buildTxPayload_length]
    have hclt : calcChecksum (bufOf (buildTxPayload r)) < 65536 := crcRun_lt _ _
    have hd1 : ((buildTxPayload r).drop 1 ++
        [calcChecksum (bufOf (buildTxPayload r)) % 256,
         calcChecksum (bufOf (buildTxPayload r)) / 256 % 256]).getD (37 - 2) 0 =
        calcChecksum (bufOf (buildTxPayload r)) % 256 := by
      rw [List.getD_append_right _ _ _ _ (by rw [hlen1])]
      rw [hlen1]
      norm_num
    have hd2 : ((buildTxPayload r).drop 1 ++
        [calcChecksum (bufOf (buildTxPayload r)) % 256,
         calcChecksum (bufOf (buildTxPayload r)) / 256 % 256]).getD (37 - 1) 0 =
        calcChecksum (bufOf (buildTxPayload r)) / 256 % 256 := by
      rw [List.getD_append_right _ _ _ _ (by rw [hlen1]; omega)]
      rw [hlen1]
      norm_num
    rw [hd1, hd2]
    have hlist : (37 : Nat) :: ((buildTxPayload r).drop 1 ++
        [calcChecksum (bufOf (buildTxPayload r)) % 256,
         calcChecksum (bufOf (buildTxPayload r)) / 256 % 256]) =
        buildTxPayload r ++
          [calcChecksum (bufOf (buildTxPayload r)) % 256,
           calcChecksum (bufOf (buildTxPayload r)) / 256 % 256] := by
      nth_rewrite 4 [buildTxPayload_head r]
      simp
    rw [hlist]
    have hb0 : bufOf (buildTxPayload r ++
        [calcChecksum (bufOf (buildTxPayload r)) % 256,
         calcChecksum (bufOf (buildTxPayload r)) / 256 % 256]) 0 = 37 := by
      show (buildTxPayload r ++ _).getD 0 0 = 37
      rw [List.getD_append _ _ _ _ (by rw [buildTxPayload_length]; omega)]
      exact buildTxPayload_getD0 r
    have hcongr : checksum (bufOf (buildTxPayload r ++
        [calcChecksum (bufOf (buildTxPayload r)) % 256,
         calcChecksum (bufOf (buildTxPayload r)) / 256 % 256])) =
        checksum (bufOf (buildTxPayload r)) := by
      apply checksum_congr
      · rw [hb0]
        exact (buildTxPayload_getD0 r).symm
      · intro i hi
        rw [hb0] at hi
        show (buildTxPayload r ++ _).getD i 0 = (buildTxPayload r).getD i 0
        rw [List.getD_append _ _ _ _ (by rw [buildTxPayload_length]; omega)]
    rw [hcongr]
    have hcs : checksum (bufOf (buildTxPayload r)) =
        calcChecksum (bufOf (buildTxPayload r)) := by
      unfold checksum calcChecksum
      simp only
      rw [if_neg]
      rw [show bufOf (buildTxPayload r) 0 = 37 from buildTxPayload_getD0 r]
      norm_num
    rw [hcs]
    exact (crc_le_bytes _ hclt).symm

/-- Claim C3 (amended): for every byte-sequence prefix after which the
parser is back in the initial sync state, feeding one complete valid wire
frame yields exactly one successfully decoded frame.  (The unrestricted
claim is refuted by `resync_prefix_counterexample`: a prefix that itself
looks like a frame start can swallow the valid frame as payload.) -/
theorem valid_frame_decodes_once (s : ParserState) (hs : s.rxstate = 0)
    (F : List Nat) (hF : ValidFrame F) : countDecodes s F = 1 := by
  obtain ⟨L, body, rfl, hlen, h4, h48, hbytes, hcrc⟩ := hF
  exact decode_one_valid_frame s hs L body hlen h4 h48 hbytes hcrc

/-- Witness for C3 (amended) at the initial parser state and the concrete
valid frame `frameSmall`. -/
theorem valid_frame_decodes_once_witness :
    countDecodes initState frameSmall = 1 :=
  valid_frame_decodes_once initState rfl frameSmall
    ⟨4, [0, 0, 82, 90], rfl, rfl, by norm_num, by norm_num, by decide,
      by decide⟩

/-- Counterexample to C3 as stated: the 6-byte prefix
`0x55 0x00 0xAA 0x00 0x54 0x30` (a legal frame start announcing a 48-byte
body) followed by the complete valid frame `frameSmall` yields zero decoded
frames, not one — the valid frame is swallowed as payload of the garbage
frame. -/
theorem resync_prefix_counterexample :
    ValidFrame frameSmall ∧
    countDecodes initState (prefixGarbage ++ frameSmall) = 0 := by
  refine ⟨⟨4, [0, 0, 82, 90], rfl, rfl, by norm_num, by norm_num, by decide,
    by decide⟩, by decide⟩

/-- Claim C6 (amended): every complete serial wire frame with length byte
`L` carries exactly `P = L - 2` payload bytes strictly between the length
byte and the trailing 2-byte little-endian checksum, which sits at stream
offsets `6+P` and `7+P`; the total frame is `6 + P + 2` bytes.  This holds
for every frame the decoder accepts (it decodes exactly once from the
initial state) and for every frame the emulator's `buildAndSend` emits
(length byte `37 = sizeof(TInfoPacket) + 1`, frame total `43`). -/
theorem frame_length_payload_layout (F : List Nat) (r : TxRaw)
    (hF : ValidFrame F) :
    F.length = 6 + (F.getD 5 0 - 2) + 2 ∧
    countDecodes initState F = 1 ∧
    checksum (bufOf (F.drop 5)) =
      F.getD (6 + (F.getD 5 0 - 2)) 0 +
        256 * F.getD (6 + (F.getD 5 0 - 2) + 1) 0 ∧
    ValidFrame (buildAndSendFrame r) ∧
    (buildAndSendFrame r).getD 5 0 = 37 ∧
    (buildAndSendFrame r).length = 6 + (37 - 2) + 2 := by
  obtain ⟨L, body, rfl, hlen, h4, h48, hbytes, hcrc⟩ := hF
  have hg5 : (0x55 :: 0x00 :: 0xAA :: 0x00 :: 0x54 :: L :: body).getD 5 0
      = L := by simp
  rw [hg5]
  refine ⟨?_, ?_, ?_, emu_frame_valid r, ?_, ?_⟩
  · simp only [List.length_cons, hlen]
    omega
  · exact decode_one_valid_frame initState rfl L body hlen h4 h48 hbytes hcrc
  · have hi1 : (0x55 :: 0x00 :: 0xAA :: 0x00 :: 0x54 :: L :: body
        : List Nat).getD (6 + (L - 2)) 0 = body.getD (L - 2) 0 := by
      rw [show 6 + (L - 2) = (L - 2) + 1 + 1 + 1 + 1 + 1 + 1 by omega]
      simp [List.getD_cons_succ]
    have hi2 : (0x55 :: 0x00 :: 0xAA :: 0x00 :: 0x54 :: L :: body
        : List Nat).getD (6 + (L - 2) + 1) 0 = body.getD (L - 1) 0 := by
      rw [show 6 + (L - 2) + 1 = (L - 1) + 1 + 1 + 1 + 1 + 1 + 1 by omega]
      simp [List.getD_cons_succ]
    rw [hi1, hi2]
    exact hcrc
  · rw [emu_frame_split]
    simp
  · rw [emu_frame_split]
    simp only [List.length_cons, List.length_append, List.length_drop,
      buildTxPayload_length]
    rfl

/-- Witness for C6 (amended) at the concrete frame `frameSmall` and
all-zero emulator inputs. -/
theorem frame_length_payload_layout_witness :
    frameSmall.length = 6 + (frameSmall.getD 5 0 - 2) + 2 ∧
    countDecodes initState frameSmall = 1 ∧
    checksum (bufOf (frameSmall.drop 5)) =
      frameSmall.getD (6 + (frameSmall.getD 5 0 - 2)) 0 +
        256 * frameSmall.getD (6 + (frameSmall.getD 5 0 - 2) + 1) 0 ∧
    ValidFrame (buildAndSendFrame txZero) ∧
    (buildAndSendFrame txZero).getD 5 0 = 37 ∧
    (buildAndSendFrame txZero).length = 6 + (37 - 2) + 2 :=
  frame_length_payload_layout frameSmall txZero
    ⟨4, [0, 0, 82, 90], rfl, rfl, by norm_num, by norm_num, by decide,
      by decide⟩

/-- Counterexample to C6 as stated (`P = L - 1`): the emulator's emitted
frame for all-zero inputs is a valid frame with length byte 37 and total
length 43 = 6 + (37-2) + 2 bytes; under the claim's `P = L - 1` it would
have to be 6 + (37-1) + 2 = 44 bytes. -/
theorem frame_length_payload_counterexample :
    ValidFrame (buildAndSendFrame txZero) ∧
    (buildAndSendFrame txZero).getD 5 0 = 37 ∧
    (buildAndSendFrame txZero).length = 43 ∧
    ¬ (buildAndSendFrame txZero).length = 6 + (37 - 1) + 2 := by
  refine ⟨emu_frame_valid txZero, by decide, by decide, by decide⟩

/-- Claim C9 (amended): after `invent_ems_init` every floating-point field
of the telemetry record holds the NaN "not-yet-received" sentinel, and
neither the serial packet decoder nor the bus-frame decoder ever writes
NaN back — every float value they produce is an actual number, so the
sentinel is distinguishable from every decodable value.  (For integer
fields the original claim fails, see `sentinel_counterexample`.) -/
theorem nan_sentinel_for_floats :
    floatsNone initEcu ∧
    (∀ buf e, floatsPreservedOrSome e (parsePacket buf e)) ∧
    (∀ e nd id d, floatsPreservedOrSome e (feedCanFrame e nd id d).2.1) := by
  refine ⟨?_, ?_, ?_⟩
  · simp [floatsNone, initEcu]
  · intro buf e
    simp only [parsePacket]
    by_cases h : byteAt buf 24 < 10
    · rw [if_pos h]
      interval_cases hb : byteAt buf 24 <;>
        simp [floatsPreservedOrSome, parseFast, parseSlow]
    · rw [if_neg h]
      simp [floatsPreservedOrSome, parseFast]
  · intro e nd id d
    simp only [feedCanFrame, canDecode]
    split_ifs <;> simp [floatsPreservedOrSome]

/-- Counterexample to C9 as stated ("every numeric field"): the integer
field `runlevel` is 0 after `invent_ems_init`, and the serial decoder
produces exactly that value from the valid frame `frameSmall` (whose
runlevel byte is 0), so the initial value of this numeric field is not
distinguishable from a decodable value — only the float fields carry the
NaN sentinel. -/
theorem sentinel_counterexample :
    ValidFrame frameSmall ∧
    (feedBytes initState frameSmall).ecu.packet_count = 1 ∧
    (feedBytes initState frameSmall).ecu.runlevel = initEcu.runlevel := by
  refine ⟨⟨4, [0, 0, 82, 90], rfl, rfl, by norm_num, by norm_num, by decide,
    by decide⟩, by decide, by decide⟩
